import Mathlib

/-!
Verification of the github-assistant ingestion pipeline against its
natural-language specification.

The definitions below are shallow embeddings of the Python source:
  - src/index.py                  (add_extra_metadata, get_es_vector_store)
  - src/config.py                 (ConfigManager.create_parser_config)
  - src/connectors/elasticsearch_connector.py
        (ParserConfig, ElasticsearchConnector.connect,
         ElasticsearchConnector.process_and_ingest_documents,
         DocumentProcessor.parse_documents)
  - src/connectors/github_connector.py
        (GitHubConnector class body, clone_repository variants,
         read_file_content, extract_code_files)
Python dicts are modelled as association lists, the filesystem as a rose
tree, exceptions as Except/Option results, and environment lookup as an
association list.  External library behaviour that the source relies on
(os.walk, glob, pathlib suffixes, Python codecs) is embedded with the
documented stdlib semantics.
-/

/-! ## Python dict primitives (dicts as association lists, insertion order kept) -/

/-- Python `d.get(k, default)` on a dict modelled as an association list. -/
def metaGet (m : List (String × String)) (k d : String) : String :=
  match m.find? (fun kv => kv.1 = k) with
  | some kv => kv.2
  | none => d

/-- The keys of a dict modelled as an association list. -/
def dictKeys (m : List (String × String)) : List String :=
  m.map (fun kv => kv.1)

/-- Python `d.update({k: v})`: overwrite the entry for `k` in place if present,
otherwise append it at the end. -/
def dictUpdateSingle (m : List (String × String)) (k v : String) : List (String × String) :=
  if m.any (fun kv => kv.1 = k) then
    m.map (fun kv => if kv.1 = k then (k, v) else kv)
  else
    m ++ [(k, v)]

/-! ## src/index.py : add_extra_metadata (metadata enricher) -/

/-- The metadata allow-list of `add_extra_metadata`
(src/index.py line 114: `["file_name", "file_path", "type"]`). -/
def allowedKeys : List String := ["file_name", "file_path", "type"]

/-- The extension classification chain of `add_extra_metadata`
(src/index.py lines 90-107). -/
def classifyExtension (ext : String) : String :=
  if ext = "md" ∨ ext = "asciidoc" ∨ ext = "txt" then "readme"
  else if ext = "yaml" ∨ ext = "yml" then "yaml"
  else if ext = "go" then "go"
  else if ext = "json" then "json"
  else if ext = "png" then "image"
  else if ext = "sh" then "shell"
  else if ext = "tpl" then "template"
  else if ext = "mod" then "module"
  else "others"

/-- ASCII lower-casing of a string (Python `str.lower()`), via the
character map to keep it kernel-computable. -/
def strToLower (s : String) : String :=
  String.mk (s.toList.map Char.toLower)

/-- Python `str.split(sep)` for a single-character separator, on the
character list. -/
def splitChars (sep : Char) : List Char → List (List Char)
  | [] => [[]]
  | c :: rest =>
    let r := splitChars sep rest
    if c = sep then [] :: r
    else
      match r with
      | h :: t => (c :: h) :: t
      | [] => [[c]]

/-- Python `file_name.split(".")`. -/
def pySplitDot (s : String) : List String :=
  (splitChars '.' s.toList).map String.mk

/-- `pat` occurs as a contiguous sublist of `s`. -/
def charsContain (pat s : List Char) : Bool :=
  match s with
  | [] => pat.isEmpty
  | c :: rest => pat.isPrefixOf (c :: rest) || charsContain pat rest

/-- Python `"test" in s` substring containment. -/
def containsSubstrTest (s : String) : Bool :=
  charsContain "test".toList s.toList

/-- The body of the `for doc in documents` loop of `add_extra_metadata`
(src/index.py lines 85-117), acting on one document's metadata dict:
derive the extension from `file_name`, classify it, override with "test"
when the lower-cased file name contains "test", strip keys outside the
allow-list, then apply the derived tag via `dict.update`. -/
def add_extra_metadata_doc (m : List (String × String)) : List (String × String) :=
  let file_name := metaGet m "file_name" ""
  let file_extension := strToLower ((pySplitDot file_name).getLastD "")
  let baseType := classifyExtension file_extension
  let ty := if containsSubstrTest (strToLower file_name) then "test" else baseType
  let stripped := m.filter (fun kv => decide (kv.1 ∈ allowedKeys))
  dictUpdateSingle stripped "type" ty

/-- A parsed document/node: text plus a metadata dict. -/
structure Document where
  text : String
  metadata : List (String × String)
deriving DecidableEq

/-- `add_extra_metadata(documents)` (src/index.py lines 84-117): enrich every
document's metadata in place. -/
def add_extra_metadata (docs : List Document) : List Document :=
  docs.map (fun d => { d with metadata := add_extra_metadata_doc d.metadata })

/-! ## src/config.py : ConfigManager.create_parser_config and ParserConfig -/

/-- `ParserConfig` dataclass (src/connectors/elasticsearch_connector.py
lines 45-51).  A plain record: the dataclass has no `__post_init__` and no
validation of any kind. -/
structure ParserConfig where
  chunk_size : Nat := 750
  chunk_overlap : Nat := 50
  max_chars : Nat := 1500
deriving DecidableEq

/-- `os.getenv(k, d)` over an environment modelled as an association list. -/
def getenvD (env : List (String × String)) (k d : String) : String :=
  match env.find? (fun kv => kv.1 = k) with
  | some kv => kv.2
  | none => d

/-- Python `int(s)` on a decimal digit string (`none` models the
`ValueError` raised on a non-numeric string). -/
def pyInt (s : String) : Option Nat :=
  let cs := s.toList
  if cs ≠ [] ∧ cs.all (fun c => '0' ≤ c ∧ c ≤ '9') then
    some (cs.foldl (fun n c => n * 10 + (c.toNat - 48)) 0)
  else none

/-- `ConfigManager.create_parser_config` (src/config.py lines 108-119):
read the three env vars with their defaults and call `int(...)` on each.
No relationship between `chunk_overlap` and `chunk_size` is checked. -/
def create_parser_config (env : List (String × String)) : Option ParserConfig :=
  match pyInt (getenvD env "PARSER_CHUNK_SIZE" "750"),
        pyInt (getenvD env "PARSER_CHUNK_OVERLAP" "50"),
        pyInt (getenvD env "PARSER_MAX_CHARS" "1500") with
  | some cs, some ov, some mc => some ⟨cs, ov, mc⟩
  | _, _, _ => none

/-! ## src/connectors/elasticsearch_connector.py :
     ElasticsearchConnector.process_and_ingest_documents -/

/-- Outcome of the external `IngestionPipeline.run` call: it either returns
normally or raises (any exception, including one caused by a single
document's embedding/write failure). -/
inductive PipelineRunOutcome where
  | ok
  | raises (msg : String)
deriving DecidableEq

/-- `ElasticsearchConnector.process_and_ingest_documents`
(src/connectors/elasticsearch_connector.py lines 318-350), given the parsed
nodes and the outcome of the `pipeline.run` call.  The Python function
returns `None` (here `Unit`): it produces no per-run tally of any kind.
An empty node list returns early; any exception from `pipeline.run` is
re-raised as `ElasticsearchConnectorError` (here `Except.error`). -/
def process_and_ingest_documents (nodes : List Document)
    (pipeline_run : PipelineRunOutcome) : Except String Unit :=
  if nodes.isEmpty then Except.ok ()
  else
    match pipeline_run with
    | PipelineRunOutcome.ok => Except.ok ()
    | PipelineRunOutcome.raises e =>
        Except.error ("Failed to ingest documents: " ++ e)

/-! ## src/connectors/github_connector.py : the GitHubConnector class body
     and Python method resolution (claim about the two clone_repository defs) -/

/-- A parameter of a Python method signature (excluding `self`):
its name and whether it has a default value. -/
structure PyParam where
  pname : String
  hasDefault : Bool
deriving DecidableEq

/-- The retry-based `clone_repository(self, force_reclone: bool = False)`
signature (src/connectors/github_connector.py line 107). -/
def cloneRetrySig : List PyParam := [⟨"force_reclone", true⟩]

/-- The later `clone_repository(self, repo_url: str, local_path: str)`
signature (src/connectors/github_connector.py line 266). -/
def cloneShadowSig : List PyParam := [⟨"repo_url", false⟩, ⟨"local_path", false⟩]

/-- The `GitHubConnector` class body as the ordered sequence of method
definitions it executes (src/connectors/github_connector.py lines 48-377),
each with its parameter list (excluding `self`).  Python executes these
top to bottom in the class namespace, so a later `def` with the same name
replaces an earlier one. -/
def githubConnectorBody : List (String × List PyParam) :=
  [("__init__", [⟨"config", true⟩]),
   ("_load_config_from_env", []),
   ("get_local_repo_path", []),
   ("get_clone_url", []),
   ("clone_repository", cloneRetrySig),
   ("_clone_with_retry", [⟨"clone_url", false⟩, ⟨"local_repo_path", false⟩]),
   ("update_repository", []),
   ("get_repository_info", []),
   ("get_supported_file_extensions", []),
   ("is_file_supported", [⟨"file_path", false⟩]),
   ("should_skip_directory", [⟨"directory_name", false⟩]),
   ("validate_github_url", [⟨"url", false⟩]),
   ("get_repository_name_from_url", [⟨"url", false⟩]),
   ("clone_repository", cloneShadowSig),
   ("read_file_content", [⟨"file_path", false⟩]),
   ("extract_code_files", [⟨"repo_path", false⟩]),
   ("process_repository", [⟨"repo_url", false⟩, ⟨"local_path", false⟩])]

/-- Python class-namespace method lookup: the last `def` with the given
name in class-body order wins. -/
def lookupMethod (body : List (String × List PyParam)) (n : String) :
    Option (List PyParam) :=
  body.foldl (fun acc entry => if entry.1 = n then some entry.2 else acc) none

/-- Python call binding for a call with `npos` positional arguments and the
keyword-argument names `kwargs`, against a signature with no *args/**kwargs:
the call raises `TypeError` unless every keyword names a parameter, no
keyword names a positionally filled parameter, there are not more
positional arguments than parameters, and every parameter without a
default is filled. -/
def bindCall (sig : List PyParam) (npos : Nat) (kwargs : List String) : Bool :=
  decide (npos ≤ sig.length) &&
  kwargs.all (fun k => sig.any (fun p => p.pname = k)) &&
  kwargs.all (fun k => !(sig.take npos).any (fun p => p.pname = k)) &&
  sig.enum.all (fun ip =>
    decide (ip.1 < npos) || ip.2.hasDefault || kwargs.contains ip.2.pname)

/-- A method call site: method name, number of positional arguments,
keyword-argument names. -/
structure CallSite where
  mname : String
  npos : Nat
  kwargs : List String
deriving DecidableEq

/-- The clone step of `KimchiPipeline.run` with `update_repo=False`
(src/main.py line 71): `self.github_connector.clone_repository(
force_reclone=force_reclone)` — one keyword argument, no positional
arguments, whatever boolean value `force_reclone` has. -/
def kimchiRunCloneCall (_force_reclone : Bool) : CallSite :=
  ⟨"clone_repository", 0, ["force_reclone"]⟩

/-! ## src/connectors/github_connector.py : read_file_content and the
     Python codec chain (utf-8, then latin-1, cp1252, iso-8859-1) -/

/-- Result of `GitHubConnector.read_file_content`: the decoded content, the
`return None` after the "Could not decode file" message, or the
`return None` of the `(FileNotFoundError, PermissionError, OSError)` arm. -/
inductive ReadResult where
  | content (s : String)
  | decodeFailure
  | osError
deriving DecidableEq

/-- Whether a read ended in the "Could not decode file" branch. -/
def ReadResult.isDecodeFailure : ReadResult → Bool
  | ReadResult.decodeFailure => true
  | _ => false

/-- Python's `latin-1` codec: total on bytes — every byte 0..255 decodes to
the code point of the same value, so decoding never fails. -/
def latin1_decode (bs : List Nat) : Option String :=
  some (String.mk (bs.map (fun b => Char.ofNat (b % 256))))

/-- Python's `cp1252` codec (strict): bytes 0x81, 0x8D, 0x8F, 0x90, 0x9D are
undefined and raise `UnicodeDecodeError`; the other 0x80-0x9F bytes map to
their Windows-1252 code points, the rest as in latin-1. -/
def cp1252_char (b : Nat) : Char :=
  if b = 0x80 then Char.ofNat 0x20AC
  else if b = 0x82 then Char.ofNat 0x201A
  else if b = 0x83 then Char.ofNat 0x0192
  else if b = 0x84 then Char.ofNat 0x201E
  else if b = 0x85 then Char.ofNat 0x2026
  else if b = 0x86 then Char.ofNat 0x2020
  else if b = 0x87 then Char.ofNat 0x2021
  else if b = 0x88 then Char.ofNat 0x02C6
  else if b = 0x89 then Char.ofNat 0x2030
  else if b = 0x8A then Char.ofNat 0x0160
  else if b = 0x8B then Char.ofNat 0x2039
  else if b = 0x8C then Char.ofNat 0x0152
  else if b = 0x8E then Char.ofNat 0x017D
  else if b = 0x91 then Char.ofNat 0x2018
  else if b = 0x92 then Char.ofNat 0x2019
  else if b = 0x93 then Char.ofNat 0x201C
  else if b = 0x94 then Char.ofNat 0x201D
  else if b = 0x95 then Char.ofNat 0x2022
  else if b = 0x96 then Char.ofNat 0x2013
  else if b = 0x97 then Char.ofNat 0x2014
  else if b = 0x98 then Char.ofNat 0x02DC
  else if b = 0x99 then Char.ofNat 0x2122
  else if b = 0x9A then Char.ofNat 0x0161
  else if b = 0x9B then Char.ofNat 0x203A
  else if b = 0x9C then Char.ofNat 0x0153
  else if b = 0x9E then Char.ofNat 0x017E
  else if b = 0x9F then Char.ofNat 0x0178
  else Char.ofNat (b % 256)

/-- Python's `cp1252` codec on a byte sequence. -/
def cp1252_decode (bs : List Nat) : Option String :=
  if bs.any (fun b =>
      b % 256 = 0x81 ∨ b % 256 = 0x8D ∨ b % 256 = 0x8F ∨
      b % 256 = 0x90 ∨ b % 256 = 0x9D) then
    none
  else
    some (String.mk (bs.map (fun b => cp1252_char (b % 256))))

/-- Python's `iso-8859-1` codec: an alias of latin-1, also total. -/
def iso8859_1_decode (bs : List Nat) : Option String :=
  some (String.mk (bs.map (fun b => Char.ofNat (b % 256))))

/-- The fallback chain of `read_file_content`
(src/connectors/github_connector.py line 308):
`encodings = ['latin-1', 'cp1252', 'iso-8859-1']`. -/
def fallbackEncodings : List (List Nat → Option String) :=
  [latin1_decode, cp1252_decode, iso8859_1_decode]

/-- The `for encoding in encodings` loop: try each decoder in order,
return the first success. -/
def tryEncodings : List (List Nat → Option String) → List Nat → Option String
  | [], _ => none
  | dec :: rest, bs =>
    match dec bs with
    | some s => some s
    | none => tryEncodings rest bs

/-- `GitHubConnector.read_file_content`
(src/connectors/github_connector.py lines 293-319).  The file is `none`
when opening raises `FileNotFoundError`/`PermissionError`/`OSError`, and
`some bs` gives the raw bytes otherwise.  `utf8` is the strict utf-8
decoder (kept abstract: only its failure triggers the fallback chain). -/
def read_file_content (utf8 : List Nat → Option String)
    (file : Option (List Nat)) : ReadResult :=
  match file with
  | none => ReadResult.osError
  | some bs =>
    match utf8 bs with
    | some s => ReadResult.content s
    | none =>
      match tryEncodings fallbackEncodings bs with
      | some s => ReadResult.content s
      | none => ReadResult.decodeFailure

/-! ## Filesystem model and src/connectors/github_connector.py :
     is_file_supported, should_skip_directory, extract_code_files -/

/-- A filesystem entry: a file with raw bytes (`none` models a file whose
`open` raises an OS-level error), or a directory with entries. -/
inductive FSEntry where
  | file (ename : String) (data : Option (List Nat)) : FSEntry
  | dir (ename : String) (entries : List FSEntry) : FSEntry

/-- `GitHubConnector.supported_extensions`
(src/connectors/github_connector.py lines 62-72). -/
def supported_extensions : List String :=
  [".py", ".js", ".jsx", ".ts", ".tsx", ".java", ".cpp", ".c",
   ".h", ".hpp", ".go", ".rs", ".php", ".rb", ".swift", ".kt",
   ".scala", ".cs", ".vb", ".pl", ".r", ".m", ".sh", ".sql",
   ".html", ".css", ".scss", ".sass", ".less", ".vue", ".svelte",
   ".md", ".rst", ".txt", ".json", ".xml", ".yaml", ".yml",
   ".toml", ".ini", ".cfg", ".conf"]

/-- `GitHubConnector.skip_directories`
(src/connectors/github_connector.py lines 74-78). -/
def skip_directories : List String :=
  [".git", ".svn", ".hg", "__pycache__", ".pytest_cache",
   "node_modules", ".vscode", ".idea", ".venv", "venv",
   ".env", "dist", "build", "target", "bin", "obj"]

/-- `pathlib.Path(name).suffix`: the substring from the last dot of the
final component, empty when the only dot is leading (hidden file) or
trailing, or when there is no dot. -/
def pathSuffix (fname : String) : String :=
  let cs := fname.toList
  match cs.reverse.findIdx? (fun c => c = '.') with
  | none => ""
  | some j =>
    let i := cs.length - 1 - j
    if 0 < i ∧ i < cs.length - 1 then String.mk (cs.drop i) else ""

/-- `GitHubConnector.is_file_supported`
(src/connectors/github_connector.py lines 227-230), on a path given as its
component list (`Path(...).suffix` only looks at the final component). -/
def is_file_supported (file_path : List String) : Bool :=
  decide (strToLower (pathSuffix (file_path.getLastD "")) ∈ supported_extensions)

/-- `GitHubConnector.should_skip_directory`
(src/connectors/github_connector.py lines 232-234). -/
def should_skip_directory (directory_name : String) : Bool :=
  decide (directory_name ∈ skip_directories)

/-- The per-file body of the `os.walk` loop of
`GitHubConnector.extract_code_files` (src/connectors/github_connector.py
lines 337-346): join the path, check `is_file_supported`, read the content,
and keep the `{file_path, content}` record when the read returned a
string. -/
def extract_file_entry (utf8 : List Nat → Option String)
    (root : List String) : FSEntry → Option (List String × String)
  | FSEntry.file n d =>
    if is_file_supported (root ++ [n]) then
      match read_file_content utf8 d with
      | ReadResult.content s => some (root ++ [n], s)
      | _ => none
    else none
  | FSEntry.dir _ _ => none

mutual
/-- The `os.walk` loop of `GitHubConnector.extract_code_files`
(src/connectors/github_connector.py lines 321-348) over the entries of one
directory, with paths as component lists rooted at `root`: process this
directory's files (supported extension, successful read), then recurse into
its subdirectories after pruning those in the skip-set
(`dirs[:] = [d for d in dirs if not self.should_skip_directory(d)]`). -/
def extract_walk (utf8 : List Nat → Option String) (root : List String)
    (es : List FSEntry) : List (List String × String) :=
  es.filterMap (extract_file_entry utf8 root)
  ++ extract_walk_dirs utf8 root es
termination_by (sizeOf es, 1)

/-- The recursive descent of `os.walk` into the kept subdirectories, in
directory order. -/
def extract_walk_dirs (utf8 : List Nat → Option String) (root : List String) :
    List FSEntry → List (List String × String)
  | [] => []
  | FSEntry.file _ _ :: rest => extract_walk_dirs utf8 root rest
  | FSEntry.dir n sub :: rest =>
    (if should_skip_directory n then [] else extract_walk utf8 (root ++ [n]) sub)
      ++ extract_walk_dirs utf8 root rest
termination_by es => (sizeOf es, 0)
end

/-- `GitHubConnector.extract_code_files` (src/connectors/github_connector.py
lines 321-348).  The root is `none` when `repo_path` does not exist: then
`os.walk` (whose `onerror` is left at `None`, so listing errors are
suppressed) yields no triples at all and the loop body never runs.  The
function body contains no `raise` and catches every read error inside
`read_file_content`, so it always returns normally — `Except.error` is
unreachable, and is present only to express the claimed `IOError`. -/
def extract_code_files (utf8 : List Nat → Option String)
    (root : Option (List FSEntry)) : Except String (List (List String × String)) :=
  match root with
  | none => Except.ok []
  | some es => Except.ok (extract_walk utf8 [] es)

/-! ## src/connectors/elasticsearch_connector.py :
     DocumentProcessor.parse_documents file discovery (glob +
     SimpleDirectoryReader), which performs no skip-set pruning -/

/-- A name hidden to Python's `glob` wildcards and to
`SimpleDirectoryReader`'s default `exclude_hidden=True`: it starts with a
dot. -/
def isHiddenName (n : String) : Bool :=
  ['.'].isPrefixOf n.toList

/-- Python `s.endswith(pat)`. -/
def strEndsWith (s pat : String) : Bool :=
  pat.toList.reverse.isPrefixOf s.toList.reverse

mutual
/-- `glob.glob(f"{repo_path}/**/*{ext}", recursive=True)`
(src/connectors/elasticsearch_connector.py line 110): every file whose name
ends with `ext`, in this directory or any non-hidden descendant directory.
`*` and `**` do not match names starting with a dot; no other directory is
excluded — in particular the skip-set of the GitHub connector plays no
role here. -/
def glob_recursive (ext : String) (es : List FSEntry) : List (List String) :=
  (es.filterMap fun e =>
    match e with
    | FSEntry.file n _ =>
      if !isHiddenName n && strEndsWith n ext then some [n] else none
    | FSEntry.dir _ _ => none)
  ++ glob_recursive_dirs ext es
termination_by (sizeOf es, 1)

/-- Descent of recursive glob into non-hidden subdirectories. -/
def glob_recursive_dirs (ext : String) : List FSEntry → List (List String)
  | [] => []
  | FSEntry.file _ _ :: rest => glob_recursive_dirs ext rest
  | FSEntry.dir n sub :: rest =>
    (if isHiddenName n then []
     else (glob_recursive ext sub).map (fun p => n :: p))
      ++ glob_recursive_dirs ext rest
termination_by es => (sizeOf es, 0)
end

mutual
/-- The file set loaded by
`SimpleDirectoryReader(input_dir=repo_path, required_exts=extensions,
recursive=True)` (src/connectors/elasticsearch_connector.py lines 117-121):
every file whose `Path(...).suffix` is in `required_exts`, recursing into
every subdirectory, excluding hidden files and directories (the reader's
default `exclude_hidden=True`).  No skip-set pruning is performed. -/
def reader_files (required_exts : List String) (es : List FSEntry) :
    List (List String) :=
  (es.filterMap fun e =>
    match e with
    | FSEntry.file n _ =>
      if !isHiddenName n && decide (pathSuffix n ∈ required_exts) then
        some [n]
      else none
    | FSEntry.dir _ _ => none)
  ++ reader_files_dirs required_exts es
termination_by (sizeOf es, 1)

/-- Recursive descent of `SimpleDirectoryReader` into non-hidden
subdirectories. -/
def reader_files_dirs (required_exts : List String) :
    List FSEntry → List (List String)
  | [] => []
  | FSEntry.file _ _ :: rest => reader_files_dirs required_exts rest
  | FSEntry.dir n sub :: rest =>
    (if isHiddenName n then []
     else (reader_files required_exts sub).map (fun p => n :: p))
      ++ reader_files_dirs required_exts rest
termination_by es => (sizeOf es, 0)
end

/-- The `.md` pass of `DocumentProcessor.parse_documents`
(src/connectors/elasticsearch_connector.py lines 107-135): if the recursive
glob finds at least one matching file, the documents actually read are
those discovered by `SimpleDirectoryReader` with `required_exts=[".md"]`;
otherwise nothing is read.  (Both registered parsers use the same `[".md"]`
extension list, so each runs this same discovery.) -/
def parse_documents_md_files (es : List FSEntry) : List (List String) :=
  if (glob_recursive ".md" es).length > 0 then reader_files [".md"] es
  else []

/-! ## src/connectors/elasticsearch_connector.py :
     ElasticsearchConnector.connect retry loop -/

/-- The `for attempt in range(connection_retries)` loop of
`ElasticsearchConnector.connect` (src/connectors/elasticsearch_connector.py
lines 300-316): `outcome i = true` means the `ElasticsearchStore`
construction on attempt `i` succeeds, `false` that it raises
`elastic_transport.ConnectionTimeout`.  Returns the final result (`ok i`:
store initialized on attempt `i`; `error`: the
`ElasticsearchConnectorError` raised after the loop) together with the
list of `time.sleep` durations performed, in order. -/
def connectAttempts (outcome : Nat → Bool) (delay retries : Nat)
    (attempt : Nat) : Nat → Except String Nat × List Nat
  | 0 =>
    (Except.error ("Failed to initialize Elasticsearch store after " ++
        toString retries ++ " attempts"), [])
  | remaining + 1 =>
    if outcome attempt then (Except.ok attempt, [])
    else
      let r := connectAttempts outcome delay retries (attempt + 1) remaining
      (r.1, delay :: r.2)

/-- `ElasticsearchConnector.connect` (src/connectors/elasticsearch_connector.py
lines 280-316), abstracted over the per-attempt outcome: run the loop for
`connection_retries` attempts with `connection_retry_delay` slept after
each timeout. -/
def es_connect (connection_retries connection_retry_delay : Nat)
    (outcome : Nat → Bool) : Except String Nat × List Nat :=
  connectAttempts outcome connection_retry_delay connection_retries 0
    connection_retries

/-! ## The size-with-overlap chunker -/

/-- Modelled from the spec: the size-with-overlap splitting strategy of
spec section 4.3.  In the source this strategy is provided by the external
`llama_index` `SentenceSplitter` configured in
`DocumentProcessor._setup_parsers` (src/connectors/elasticsearch_connector.py
lines 72-88); the splitting algorithm itself is not code under src/, so it
is embedded from the spec's words: chunks of at most `chunk_size` units,
each chunk after the first beginning `chunk_overlap` units before the end
of the previous chunk, and a document shorter than `chunk_size` producing
exactly one chunk equal to the whole document.  The final `else` arm is
unreachable under the validated configuration `chunk_overlap <
chunk_size`. -/
def chunkSizeOverlap (chunk_size chunk_overlap : Nat) (doc : List Char) :
    List (List Char) :=
  if doc.length ≤ chunk_size then [doc]
  else if chunk_overlap < chunk_size then
    doc.take chunk_size ::
      chunkSizeOverlap chunk_size chunk_overlap
        (doc.drop (chunk_size - chunk_overlap))
  else [doc]
termination_by doc.length
decreasing_by
  simp only [List.length_drop]
  omega

/-! ## Claim C1 : the ingestion tally -/

/-- C1 (code_bug evaluation): `process_and_ingest_documents` evaluated at a
one-node run whose `pipeline.run` raises for that document.  The call
raises `ElasticsearchConnectorError` (an `Except.error`) instead of
returning a `{successful, failed}` tally — its return type carries no
counts at all — contradicting the claimed contract (and the contract the
repository's own tests assert for `ingest_documents`). -/
theorem process_and_ingest_raises_on_per_document_failure :
    process_and_ingest_documents [⟨"chunk text", [("file_name", "a.md")]⟩]
        (PipelineRunOutcome.raises "per-document embedding failure") =
      Except.error "Failed to ingest documents: per-document embedding failure" := by
  rfl

/-! ## Claim C2 : the shadowed clone_repository -/

/-- C2: in the `GitHubConnector` class body the later
`clone_repository(repo_url, local_path)` definition replaces the earlier
retry-based `clone_repository(force_reclone)`; the clone step of
`KimchiPipeline.run` with `update_repo=False` calls `clone_repository`
with only the keyword argument `force_reclone` (for either boolean value),
and that call cannot be bound against the resolved signature (a
`TypeError`), while it would have bound against the shadowed retry-based
signature — so the retry loop is never reached. -/
theorem clone_repository_shadowed_call_unbindable : ∀ fr : Bool,
    (kimchiRunCloneCall fr).mname = "clone_repository" ∧
    ("clone_repository", cloneRetrySig) ∈ githubConnectorBody ∧
    lookupMethod githubConnectorBody "clone_repository" = some cloneShadowSig ∧
    bindCall cloneShadowSig (kimchiRunCloneCall fr).npos
      (kimchiRunCloneCall fr).kwargs = false ∧
    bindCall cloneRetrySig (kimchiRunCloneCall fr).npos
      (kimchiRunCloneCall fr).kwargs = true := by
  decide

/-! ## Claim C3 : no configuration-time chunk_overlap validation -/

/-- C3 (counterexample): a configuration with
`chunk_overlap = 100 ≥ 50 = chunk_size` is accepted by
`create_parser_config` — construction succeeds instead of failing fast. -/
theorem create_parser_config_accepts_overlap_ge_size :
    50 ≤ 100 ∧
    create_parser_config
        [("PARSER_CHUNK_SIZE", "50"), ("PARSER_CHUNK_OVERLAP", "100")] =
      some { chunk_size := 50, chunk_overlap := 100, max_chars := 1500 } := by
  decide

/-- C3 (amended): configuration construction is unconditional — whenever
the three environment values parse as integers, `create_parser_config`
succeeds with exactly those values, with no constraint between
`chunk_overlap` and `chunk_size` (the `chunk_overlap < chunk_size`
requirement is only enforced later, by the external SentenceSplitter
constructor during processor setup). -/
theorem create_parser_config_unconditional (env : List (String × String))
    (cs ov mc : Nat)
    (h1 : pyInt (getenvD env "PARSER_CHUNK_SIZE" "750") = some cs)
    (h2 : pyInt (getenvD env "PARSER_CHUNK_OVERLAP" "50") = some ov)
    (h3 : pyInt (getenvD env "PARSER_MAX_CHARS" "1500") = some mc) :
    create_parser_config env = some ⟨cs, ov, mc⟩ := by
  simp [create_parser_config, h1, h2, h3]

/-- Witness for the amended C3 theorem at a concrete environment in which
the overlap (100) is not smaller than the chunk size (50). -/
theorem create_parser_config_unconditional_witness :
    create_parser_config
        [("PARSER_CHUNK_SIZE", "50"), ("PARSER_CHUNK_OVERLAP", "100"),
         ("PARSER_MAX_CHARS", "200")] =
      some ⟨50, 100, 200⟩ :=
  create_parser_config_unconditional _ 50 100 200 (by decide) (by decide)
    (by decide)

/-! ## Claim C9 : documents shorter than chunk_size give one chunk -/

/-- C9: for every document strictly shorter than `chunk_size`, the
size-with-overlap strategy produces exactly one chunk equal to the whole
document. -/
theorem chunkSizeOverlap_short_doc (chunk_size chunk_overlap : Nat)
    (doc : List Char) (h : doc.length < chunk_size) :
    chunkSizeOverlap chunk_size chunk_overlap doc = [doc] := by
  have h1 : doc.length ≤ chunk_size := Nat.le_of_lt h
  rw [chunkSizeOverlap]
  simp [h1]

/-- Witness for C9 at a concrete 3-character document and the default
`chunk_size = 750`. -/
theorem chunkSizeOverlap_short_doc_witness :
    ("abc".toList).length < 750 ∧
    chunkSizeOverlap 750 50 "abc".toList = ["abc".toList] :=
  ⟨by decide, chunkSizeOverlap_short_doc 750 50 "abc".toList (by decide)⟩

/-! ## Claim C10 : the decode-failure branch of read_file_content is
     unreachable -/

/-- C10: for every byte sequence the fallback chain succeeds no later than
latin-1 (which decodes every byte sequence), so `read_file_content` never
reaches the "could not decode" branch, and it returns `None` exactly for
OS-level errors (missing file, permission denied) — for every utf-8
decoder behaviour. -/
theorem read_file_content_decode_branch_unreachable
    (utf8 : List Nat → Option String) (file : Option (List Nat)) :
    (read_file_content utf8 file).isDecodeFailure = false ∧
    (read_file_content utf8 file = ReadResult.osError ↔ file = none) := by
  cases file with
  | none => simp [read_file_content, ReadResult.isDecodeFailure]
  | some bs =>
    cases h : utf8 bs with
    | some s => simp [read_file_content, h, ReadResult.isDecodeFailure]
    | none =>
      simp [read_file_content, h, tryEncodings, fallbackEncodings,
        latin1_decode, ReadResult.isDecodeFailure]

/-! ## Dict lemmas for the metadata enricher -/

theorem find_map_overwrite (k v : String) (m : List (String × String))
    (h : m.any (fun kv => kv.1 = k) = true) :
    (m.map (fun kv => if kv.1 = k then (k, v) else kv)).find?
        (fun kv => kv.1 = k) = some (k, v) := by
  induction m with
  | nil => simp at h
  | cons kv rest ih =>
    by_cases hk : kv.1 = k
    · simp [hk]
    · have hrest : rest.any (fun kv => kv.1 = k) = true := by
        simp [List.any_cons, hk] at h
        simpa using h
      simp [hk, List.find?_cons_of_neg, ih hrest]

theorem find_append_new (k v : String) (m : List (String × String))
    (h : m.any (fun kv => kv.1 = k) = false) :
    (m ++ [(k, v)]).find? (fun kv => kv.1 = k) = some (k, v) := by
  induction m with
  | nil => simp
  | cons kv rest ih =>
    simp [List.any_cons] at h
    simp [List.find?_cons_of_neg, h.1, ih (by simpa using h.2)]

theorem metaGet_dictUpdateSingle (m : List (String × String)) (k v d : String) :
    metaGet (dictUpdateSingle m k v) k d = v := by
  unfold dictUpdateSingle metaGet
  cases h : m.any (fun kv => kv.1 = k) with
  | true =>
    rw [if_pos rfl, find_map_overwrite k v m h]
  | false =>
    rw [if_neg (by simp), find_append_new k v m h]

theorem keys_dictUpdateSingle (m : List (String × String)) (k v k0 : String) :
    k0 ∈ dictKeys (dictUpdateSingle m k v) ↔ k0 ∈ dictKeys m ∨ k0 = k := by
  unfold dictUpdateSingle dictKeys
  by_cases h : m.any (fun kv => kv.1 = k) = true
  · have hmem : k ∈ m.map (fun kv => kv.1) := by
      rcases List.any_eq_true.mp h with ⟨kv, hkv, hk⟩
      exact List.mem_map.mpr ⟨kv, hkv, by simpa using hk⟩
    have hkeys : (m.map (fun kv => if kv.1 = k then (k, v) else kv)).map
        (fun kv => kv.1) = m.map (fun kv => kv.1) := by
      rw [List.map_map]
      apply List.map_congr_left
      intro kv _
      by_cases hk : kv.1 = k <;> simp [hk]
    rw [if_pos h, hkeys]
    constructor
    · intro hm
      exact Or.inl hm
    · rintro (hm | rfl)
      · exact hm
      · exact hmem
  · rw [if_neg h]
    simp

theorem keys_filter_allowed (m : List (String × String)) (k0 : String) :
    k0 ∈ dictKeys (m.filter (fun kv => decide (kv.1 ∈ allowedKeys))) ↔
      k0 ∈ dictKeys m ∧ k0 ∈ allowedKeys := by
  unfold dictKeys
  constructor
  · intro h
    rcases List.mem_map.mp h with ⟨kv, hkv, rfl⟩
    rcases List.mem_filter.mp hkv with ⟨hm, hd⟩
    exact ⟨List.mem_map.mpr ⟨kv, hm, rfl⟩, by simpa using hd⟩
  · rintro ⟨h1, h2⟩
    rcases List.mem_map.mp h1 with ⟨kv, hm, rfl⟩
    exact List.mem_map.mpr
      ⟨kv, List.mem_filter.mpr ⟨hm, by simpa using h2⟩, rfl⟩

/-! ## Claim C4 : the enriched metadata key set -/

/-- C4 (counterexample): a document whose incoming metadata lacks
`file_name`/`file_path` (here a single key `branch`) ends with key set
`["type"]` after enrichment — not the full allow-list `{file_name,
file_path, type}` the claim requires. -/
theorem enriched_metadata_keys_cex :
    "file_name" ∈ allowedKeys ∧
    dictKeys (add_extra_metadata_doc [("branch", "main")]) = ["type"] := by
  decide

/-- C4 (amended): after enrichment the metadata key set is exactly
(original keys ∩ allow-list) ∪ {type} — every key outside the allow-list
is stripped before the derived tag is applied, `type` is always present,
and `file_name`/`file_path` are present exactly when the incoming metadata
already had them (so the key set equals the whole allow-list only in that
case). -/
theorem enriched_metadata_keys (m : List (String × String)) (k0 : String) :
    k0 ∈ dictKeys (add_extra_metadata_doc m) ↔
      (k0 ∈ dictKeys m ∧ k0 ∈ allowedKeys) ∨ k0 = "type" := by
  unfold add_extra_metadata_doc
  rw [keys_dictUpdateSingle, keys_filter_allowed]

/-! ## Claim C5 : the "test" override of the type tag -/

/-- C5: for every document, the enriched `type` tag is `"test"` whenever
the (lower-cased) file name contains the substring "test", regardless of
what the extension-based classification table would assign, and is the
table's extension-derived value otherwise. -/
theorem enriched_type_tag (m : List (String × String)) :
    metaGet (add_extra_metadata_doc m) "type" "" =
      (if containsSubstrTest (strToLower (metaGet m "file_name" "")) then
        "test"
       else
        classifyExtension
          (strToLower ((pySplitDot (metaGet m "file_name" "")).getLastD ""))) := by
  unfold add_extra_metadata_doc
  exact metaGet_dictUpdateSingle _ _ _ _

/-! ## Claim C8 : the connect retry loop -/

theorem connectAttempts_spec (outcome : Nat → Bool) (delay retries : Nat) :
    ∀ remaining attempt,
      (∀ d ∈ (connectAttempts outcome delay retries attempt remaining).2,
          d = delay) ∧
      (connectAttempts outcome delay retries attempt remaining).2.length ≤
        remaining ∧
      ((∃ msg, (connectAttempts outcome delay retries attempt remaining).1 =
          Except.error msg) ↔
        ∀ i, attempt ≤ i → i < attempt + remaining → outcome i = false) ∧
      (∀ k, (connectAttempts outcome delay retries attempt remaining).1 =
          Except.ok k →
        outcome k = true ∧ attempt ≤ k ∧ k < attempt + remaining ∧
        (∀ j, attempt ≤ j → j < k → outcome j = false) ∧
        (connectAttempts outcome delay retries attempt remaining).2.length =
          k - attempt) := by
  intro remaining
  induction remaining with
  | zero =>
    intro attempt
    refine ⟨by simp [connectAttempts], by simp [connectAttempts], ?_, ?_⟩
    · constructor
      · intro _ i h1 h2
        omega
      · intro _
        exact ⟨_, rfl⟩
    · intro k hk
      simp [connectAttempts] at hk
  | succ rem ih =>
    intro attempt
    by_cases h : outcome attempt = true
    · refine ⟨by simp [connectAttempts, h], by simp [connectAttempts, h],
        ?_, ?_⟩
      · constructor
        · rintro ⟨msg, hm⟩
          simp [connectAttempts, h] at hm
        · intro hall
          have := hall attempt (Nat.le_refl _) (by omega)
          rw [h] at this
          cases this
      · intro k hk
        simp [connectAttempts, h] at hk
        subst hk
        exact ⟨h, Nat.le_refl _, by omega, fun j h1 h2 => by omega,
          by simp [connectAttempts, h]⟩
    · have hfalse : outcome attempt = false := by
        cases ho : outcome attempt
        · rfl
        · exact absurd ho h
      obtain ⟨ihsleep, ihlen, ihiff, ihok⟩ := ih (attempt + 1)
      have hunfold : connectAttempts outcome delay retries attempt (rem + 1) =
          ((connectAttempts outcome delay retries (attempt + 1) rem).1,
           delay ::
             (connectAttempts outcome delay retries (attempt + 1) rem).2) := by
        simp [connectAttempts, hfalse]
      refine ⟨?_, ?_, ?_, ?_⟩
      · intro d hd
        rw [hunfold] at hd
        rcases List.mem_cons.mp hd with h1 | h1
        · exact h1
        · exact ihsleep d h1
      · rw [hunfold]
        simpa using Nat.succ_le_succ ihlen
      · rw [hunfold]
        constructor
        · rintro ⟨msg, hm⟩ i h1 h2
          rcases Nat.eq_or_lt_of_le h1 with rfl | h1lt
          · exact hfalse
          · exact (ihiff.mp ⟨msg, hm⟩) i (by omega) (by omega)
        · intro hall
          exact ihiff.mpr (fun i h1 h2 => hall i (by omega) (by omega))
      · intro k hk
        rw [hunfold] at hk
        obtain ⟨hk1, hk2, hk3, hk4, hk5⟩ := ihok k hk
        refine ⟨hk1, by omega, by omega, ?_, ?_⟩
        · intro j h1 h2
          rcases Nat.eq_or_lt_of_le h1 with rfl | h1lt
          · exact hfalse
          · exact hk4 j (by omega) h2
        · rw [hunfold]
          simp only [List.length_cons]
          omega

/-- C8: during store initialization, timeouts are retried with the fixed
`connection_retry_delay` between attempts, at most `connection_retries`
attempts (hence at most `connection_retries` sleeps) are made; the run
raises the fatal `ElasticsearchConnectorError` exactly when every attempt
times out, and if some attempt succeeds, the store from the first
successful attempt is returned with no further attempts (all earlier
attempts timed out, and exactly that many delays were slept). -/
theorem es_connect_retry_policy (connection_retries connection_retry_delay : Nat)
    (outcome : Nat → Bool) :
    (∀ d ∈ (es_connect connection_retries connection_retry_delay outcome).2,
        d = connection_retry_delay) ∧
    (es_connect connection_retries connection_retry_delay outcome).2.length ≤
      connection_retries ∧
    ((∃ msg, (es_connect connection_retries connection_retry_delay outcome).1 =
        Except.error msg) ↔
      ∀ i, i < connection_retries → outcome i = false) ∧
    (∀ k, (es_connect connection_retries connection_retry_delay outcome).1 =
        Except.ok k →
      outcome k = true ∧ k < connection_retries ∧
      (∀ j, j < k → outcome j = false) ∧
      (es_connect connection_retries connection_retry_delay outcome).2.length =
        k) := by
  obtain ⟨h1, h2, h3, h4⟩ :=
    connectAttempts_spec outcome connection_retry_delay connection_retries
      connection_retries 0
  unfold es_connect
  refine ⟨h1, h2, ?_, ?_⟩
  · rw [h3]
    constructor
    · intro hall i hi
      exact hall i (Nat.zero_le _) (by omega)
    · intro hall i _ hi
      exact hall i (by omega)
  · intro k hk
    obtain ⟨hk1, _, hk3, hk4, hk5⟩ := h4 k hk
    exact ⟨hk1, by omega, fun j hj => hk4 j (Nat.zero_le _) hj, by omega⟩

/-- Witness for C8 at a concrete outcome in which the second attempt
succeeds. -/
theorem es_connect_retry_policy_witness :
    (es_connect 3 15 (fun i => decide (i = 1))).2.length ≤ 3 :=
  (es_connect_retry_policy 3 15 (fun i => decide (i = 1))).2.1


/-! ## Walk lemmas for extract_code_files -/

/-- A file of the tree that the pruned walk may visit: it lies under
`root` through non-skipped directories only, with byte data `d`. -/
inductive ReachableFile :
    List String → List FSEntry → List String → Option (List Nat) → Prop where
  | here {root : List String} {es : List FSEntry} {n : String}
      {d : Option (List Nat)} :
      FSEntry.file n d ∈ es → ReachableFile root es (root ++ [n]) d
  | step {root : List String} {es : List FSEntry} {n : String}
      {sub : List FSEntry} {p : List String} {d : Option (List Nat)} :
      FSEntry.dir n sub ∈ es → should_skip_directory n = false →
      ReachableFile (root ++ [n]) sub p d → ReachableFile root es p d

theorem mem_if_nil {α : Type} (b : Bool) (L : List α) (x : α) :
    x ∈ (if b = true then [] else L) ↔ b = false ∧ x ∈ L := by
  cases b <;> simp

theorem extract_walk_dirs_mem (utf8 : List Nat → Option String)
    (root : List String) (es : List FSEntry) (p : List String) (c : String) :
    (p, c) ∈ extract_walk_dirs utf8 root es ↔
      ∃ n sub, FSEntry.dir n sub ∈ es ∧ should_skip_directory n = false ∧
        (p, c) ∈ extract_walk utf8 (root ++ [n]) sub := by
  induction es with
  | nil => simp [extract_walk_dirs]
  | cons e rest ih =>
    cases e with
    | file n d =>
      rw [show extract_walk_dirs utf8 root (FSEntry.file n d :: rest) =
          extract_walk_dirs utf8 root rest from by
        simp [extract_walk_dirs]]
      rw [ih]
      constructor
      · rintro ⟨n1, sub, hin, hskip, hmem⟩
        exact ⟨n1, sub, List.mem_cons_of_mem _ hin, hskip, hmem⟩
      · rintro ⟨n1, sub, hin, hskip, hmem⟩
        rcases List.mem_cons.mp hin with heq | hin2
        · exact FSEntry.noConfusion heq
        · exact ⟨n1, sub, hin2, hskip, hmem⟩
    | dir n sub =>
      rw [show extract_walk_dirs utf8 root (FSEntry.dir n sub :: rest) =
          (if should_skip_directory n = true then []
           else extract_walk utf8 (root ++ [n]) sub) ++
            extract_walk_dirs utf8 root rest from by
        simp [extract_walk_dirs]]
      rw [List.mem_append, mem_if_nil, ih]
      constructor
      · rintro (⟨hskip, hmem⟩ | ⟨n1, sub1, hin, hskip1, hmem⟩)
        · exact ⟨n, sub, List.mem_cons_self _ _, hskip, hmem⟩
        · exact ⟨n1, sub1, List.mem_cons_of_mem _ hin, hskip1, hmem⟩
      · rintro ⟨n1, sub1, hin, hskip1, hmem⟩
        rcases List.mem_cons.mp hin with heq | hin2
        · injection heq with h1 h2
          subst h1
          subst h2
          exact Or.inl ⟨hskip1, hmem⟩
        · exact Or.inr ⟨n1, sub1, hin2, hskip1, hmem⟩

theorem extract_walk_mem_step (utf8 : List Nat → Option String)
    (root : List String) (es : List FSEntry) (p : List String) (c : String) :
    (p, c) ∈ extract_walk utf8 root es ↔
      ((∃ n d, FSEntry.file n d ∈ es ∧ p = root ++ [n] ∧
          is_file_supported (root ++ [n]) = true ∧
          read_file_content utf8 d = ReadResult.content c) ∨
        (p, c) ∈ extract_walk_dirs utf8 root es) := by
  rw [extract_walk, List.mem_append]
  apply or_congr_left
  rw [List.mem_filterMap]
  constructor
  · rintro ⟨e, he, hfe⟩
    cases e with
    | file n d =>
      rw [extract_file_entry] at hfe
      by_cases hsupp : is_file_supported (root ++ [n]) = true
      · rw [if_pos hsupp] at hfe
        cases hread : read_file_content utf8 d with
        | content s =>
          rw [hread] at hfe
          simp only [Option.some.injEq, Prod.mk.injEq] at hfe
          exact ⟨n, d, he, hfe.1.symm, hsupp, by rw [hread, hfe.2]⟩
        | decodeFailure =>
          rw [hread] at hfe
          cases hfe
        | osError =>
          rw [hread] at hfe
          cases hfe
      · rw [if_neg hsupp] at hfe
        cases hfe
    | dir n1 sub1 =>
      rw [extract_file_entry] at hfe
      cases hfe
  · rintro ⟨n, d, hin, rfl, hsupp, hread⟩
    refine ⟨FSEntry.file n d, hin, ?_⟩
    rw [extract_file_entry, if_pos hsupp, hread]

theorem reachable_mem (utf8 : List Nat → Option String) (c : String) :
    ∀ {root : List String} {es : List FSEntry} {p : List String}
      {d : Option (List Nat)}, ReachableFile root es p d →
      is_file_supported p = true →
      read_file_content utf8 d = ReadResult.content c →
      (p, c) ∈ extract_walk utf8 root es := by
  intro root es p d h
  induction h with
  | here hin =>
    intro hsupp hread
    exact (extract_walk_mem_step utf8 _ _ _ _).mpr
      (Or.inl ⟨_, _, hin, rfl, hsupp, hread⟩)
  | step hin hskip _ ihh =>
    intro hsupp hread
    exact (extract_walk_mem_step utf8 _ _ _ _).mpr
      (Or.inr ((extract_walk_dirs_mem utf8 _ _ _ _).mpr
        ⟨_, _, hin, hskip, ihh hsupp hread⟩))

theorem extract_walk_mem_iff_aux (utf8 : List Nat → Option String) :
    ∀ N, ∀ es : List FSEntry, sizeOf es ≤ N → ∀ root p c,
      ((p, c) ∈ extract_walk utf8 root es ↔
        ∃ d, ReachableFile root es p d ∧ is_file_supported p = true ∧
          read_file_content utf8 d = ReadResult.content c) := by
  intro N
  induction N using Nat.strong_induction_on with
  | _ N ih =>
    intro es hN root p c
    constructor
    · intro hmem
      rcases (extract_walk_mem_step utf8 root es p c).mp hmem with
        ⟨n, d, hin, rfl, hsupp, hread⟩ | hdirs
      · exact ⟨d, ReachableFile.here hin, hsupp, hread⟩
      · rcases (extract_walk_dirs_mem utf8 root es p c).mp hdirs with
          ⟨n, sub, hin, hskip, hsub⟩
        have h1 : sizeOf (FSEntry.dir n sub) < sizeOf es :=
          List.sizeOf_lt_of_mem hin
        have h2 : sizeOf (FSEntry.dir n sub) = 1 + sizeOf n + sizeOf sub := by
          simp
        rcases (ih (sizeOf sub) (by omega) sub (Nat.le_refl _)
            (root ++ [n]) p c).mp hsub with ⟨d, hreach, hsupp, hread⟩
        exact ⟨d, ReachableFile.step hin hskip hreach, hsupp, hread⟩
    · rintro ⟨d, hreach, hsupp, hread⟩
      exact reachable_mem utf8 c hreach hsupp hread

theorem extract_walk_mem_iff (utf8 : List Nat → Option String)
    (es : List FSEntry) (root p : List String) (c : String) :
    (p, c) ∈ extract_walk utf8 root es ↔
      ∃ d, ReachableFile root es p d ∧ is_file_supported p = true ∧
        read_file_content utf8 d = ReadResult.content c :=
  extract_walk_mem_iff_aux utf8 (sizeOf es) es (Nat.le_refl _) root p c

theorem reachable_path_shape :
    ∀ {root : List String} {es : List FSEntry} {p : List String}
      {d : Option (List Nat)}, ReachableFile root es p d →
      ∃ rest, p = root ++ rest ∧ rest ≠ [] ∧
        ∀ comp ∈ rest.dropLast, should_skip_directory comp = false := by
  intro root es p d h
  induction h with
  | here hin => exact ⟨[_], rfl, by simp, by simp⟩
  | @step root2 es2 n2 sub2 p2 d2 hin hskip hrec ihh =>
    rcases ihh with ⟨rest, rfl, hne, hall⟩
    rcases rest with _ | ⟨r0, rtail⟩
    · exact absurd rfl hne
    · refine ⟨n2 :: r0 :: rtail, by simp, by simp, ?_⟩
      intro comp hcomp
      rw [List.dropLast_cons₂] at hcomp
      rcases List.mem_cons.mp hcomp with rfl | hcomp2
      · exact hskip
      · exact hall comp hcomp2

/-! ## Claim C6 : file discovery, missing root, and unreadable files -/

/-- C6 (counterexample): `extract_code_files` on a nonexistent root path
returns normally with an empty list — `os.walk` (with its default
`onerror=None`) suppresses the error, so no `IOError` is ever raised,
contradicting the claimed "raises an IOError if and only if the root path
itself does not exist". -/
theorem extract_code_files_missing_root_cex :
    extract_code_files (fun _ => none) none = Except.ok [] := by
  rfl

/-- C6 (amended): discovery never raises at all — a missing root yields a
normal empty result and an existing root always yields a normal result;
and within a run, the files returned are exactly the reachable
(skip-set-pruned) files with a supported extension whose read succeeded:
a file that is unreadable or (hypothetically) undecodable is skipped
without affecting any other file, and every other matching file is
returned. -/
theorem extract_code_files_total (utf8 : List Nat → Option String) :
    extract_code_files utf8 none = Except.ok [] ∧
    (∀ es, extract_code_files utf8 (some es) =
      Except.ok (extract_walk utf8 [] es)) ∧
    (∀ es p c, (p, c) ∈ extract_walk utf8 [] es ↔
      ∃ d, ReachableFile [] es p d ∧ is_file_supported p = true ∧
        read_file_content utf8 d = ReadResult.content c) :=
  ⟨rfl, fun _ => rfl, fun es p c => extract_walk_mem_iff utf8 es [] p c⟩

/-! ## Claim C7 : skip-set pruning -/

/-- C7 (counterexample): the chunking-phase file discovery of
`parse_documents` does not prune the skip-set: a `.md` file inside a
`node_modules` directory — a directory in the fixed skip-set — is
discovered and read by the chunking phase (glob and SimpleDirectoryReader
only exclude hidden, dot-prefixed names). -/
theorem chunk_discovery_reads_skipset_cex :
    should_skip_directory "node_modules" = true ∧
    ["node_modules", "a.md"] ∈ parse_documents_md_files
      [FSEntry.dir "node_modules" [FSEntry.file "a.md" (some [104])]] := by
  constructor
  · decide
  · simp only [parse_documents_md_files, glob_recursive, glob_recursive_dirs,
      reader_files, reader_files_dirs]
    decide

/-- C7 (amended): only the whole-file extractor prunes the skip-set: no
file returned by `extract_code_files`' walk has a path that passes through
a directory whose name is in the skip-set.  (The chunking-phase discovery
performs no such pruning — see the counterexample.) -/
theorem extractor_prunes_skipset (utf8 : List Nat → Option String)
    (es : List FSEntry) (p : List String) (c : String)
    (h : (p, c) ∈ extract_walk utf8 [] es) :
    ∀ comp ∈ p.dropLast, should_skip_directory comp = false := by
  rcases (extract_walk_mem_iff utf8 es [] p c).mp h with ⟨d, hreach, _, _⟩
  rcases reachable_path_shape hreach with ⟨rest, rfl, hne, hall⟩
  simpa using hall

/-- Witness for the amended C7 theorem at a concrete tree: the walk
returns `src/a.py`, and its intermediate directory `src` is indeed not in
the skip-set. -/
theorem extractor_prunes_skipset_witness :
    should_skip_directory "src" = false := by
  have hmem : ((["src", "a.py"], "h") : List String × String) ∈
      extract_walk (fun _ => none) []
        [FSEntry.dir "src" [FSEntry.file "a.py" (some [104])]] := by
    simp only [extract_walk, extract_walk_dirs, extract_file_entry]
    decide
  exact extractor_prunes_skipset (fun _ => none) _ _ _ hmem "src" (by decide)
